import Mathlib

/-! min-game: herbivore populations, the player and the game tick

A shallow embedding of `animal/herb.go`, `minima/player.go` and the tick of
`minima/game.go`.

Conventions of the embedding.

* A finite `float64` is the rational it denotes.  The `float64` operations
  written in the three files (`+`, `-`, `+=`, `-=` and the conversion
  `float64(int)`) round to the nearest `float64`, ties to even, through
  `roundF64`.  The arithmetic inside the absent package `geom` is modelled from
  the spec and is exact.
* Go `int` is `Int`; the one counter that can run for ever (`o2ticks`) wraps at
  64 bits through `wrapInt64`.
* A result of type `Option α` is `none` when the Go code panics (a nil pointer
  dereference, `rand.Intn` with a non-positive bound).
* A `*item.Item` stored in a slot of a slice is `Option Item`, `none` being the
  nil pointer.  A non-nil pointer handed out by `FindEtele` is the slot of the
  suit it was read from together with the item stored there.
* The packages `geom`, `phys`, `ai`, `sprite`, `item`, `ui` and `world` are
  imported by the three files but are not part of them.  What the files use of
  them is either declared below with the fields the files read, or collected
  in `Ext` and left arbitrary.
-/

namespace MinGame

/-! ## float64 -/

/-- The loop of `log2`: at most `fuel` halvings of `n`. -/
def log2Fuel : Nat → Nat → Nat
  | 0, _ => 0
  | fuel + 1, n => if 2 ≤ n then log2Fuel fuel (n / 2) + 1 else 0

/-- The position of the leading bit of `n`: the floor of its binary logarithm
(0 for `n = 0`). -/
def log2 (n : Nat) : Nat := log2Fuel n n

/-- The floor of the binary logarithm of `n / d`, for positive `n` and `d`. -/
def ilog2 (n d : Nat) : Int :=
  let e : Int := (log2 n : Int) - (log2 d : Int)
  if (if 0 ≤ e then 2 ^ e.toNat * d ≤ n else d ≤ n * 2 ^ (-e).toNat) then e else e - 1

/-- The integer nearest to `n / d`, a tie going to the even one. -/
def roundEven (n : Int) (d : Nat) : Int :=
  let f : Int := n / (d : Int)
  let r : Int := n - f * (d : Int)
  if 2 * r < d then f else if (d : Int) < 2 * r then f + 1 else if f % 2 = 0 then f else f + 1

/-- The `float64` nearest to `n / d` (ties to even), as a significand `m` and an
exponent `k` with value `m * 2 ^ k`: 53 significant bits, and the spacing of the
subnormals, `2 ^ -1074`, below `2 ^ -1022`. -/
def roundParts (n : Int) (d : Nat) : Int × Int :=
  let e : Int := ilog2 n.natAbs d
  let k : Int := (if e < -1022 then -1022 else e) - 52
  let m : Int := if 0 ≤ k then roundEven n (d * 2 ^ k.toNat) else roundEven (n * 2 ^ (-k).toNat) d
  (m, k)

/-- Rounding of a real result to `float64` (IEEE 754 binary64, round to nearest,
ties to even). A result of magnitude `2 ^ 1024` or more is infinite in Go and
is outside the rationals: there the function keeps 53 bits and an unbounded
exponent. -/
def roundF64 (q : ℚ) : ℚ :=
  if q = 0 then 0 else ((roundParts q.num q.den).1 : ℚ) * (2 : ℚ) ^ (roundParts q.num q.den).2

/-- The Go operation `x + y` on `float64`. -/
def f64Add (x y : ℚ) : ℚ := roundF64 (x + y)

/-- The Go operation `x - y` on `float64`. -/
def f64Sub (x y : ℚ) : ℚ := roundF64 (x - y)

/-- The Go conversion `float64(n)` of an `int`. -/
def f64OfInt (n : Int) : ℚ := roundF64 (n : ℚ)

/-! ## geom -/

/-- A `geom.Point`: a pair of coordinates. -/
structure Point where
  X : ℚ
  Y : ℚ
deriving DecidableEq

/-- Modelled from the spec: `geom.Pt`, the point with the given coordinates. -/
def Pt (x y : ℚ) : Point := ⟨x, y⟩

/-- Modelled from the spec: `geom.Point.Add`, coordinate-wise sum. -/
def Point.Add (p q : Point) : Point := ⟨p.X + q.X, p.Y + q.Y⟩

/-- A `geom.Rectangle`: the bounding box given by its two corners. -/
structure Rectangle where
  Min : Point
  Max : Point
deriving DecidableEq

/-- Modelled from the spec: `geom.Rect`, the box with min corner `(x0, y0)` and
max corner `(x1, y1)` (the spec describes a box as a min corner and a size). -/
def Rect (x0 y0 x1 y1 : ℚ) : Rectangle := ⟨⟨x0, y0⟩, ⟨x1, y1⟩⟩

/-- Modelled from the spec: `geom.Rectangle.Dx`, the width of the box. -/
def Rectangle.Dx (r : Rectangle) : ℚ := r.Max.X - r.Min.X

/-- Modelled from the spec: `geom.Rectangle.Dy`, the height of the box. -/
def Rectangle.Dy (r : Rectangle) : ℚ := r.Max.Y - r.Min.Y

/-! ## phys, ai, sprite, item -/

/-- A `phys.Body`: a box and a velocity. -/
structure Body where
  Box : Rectangle
  Vel : Point
deriving DecidableEq

/-- The zero value of `phys.Body`. -/
def Body.zero : Body := ⟨⟨⟨0, 0⟩, ⟨0, 0⟩⟩, ⟨0, 0⟩⟩

/-- An `ai.Boid`, with the two fields the files read: its body and its
think-group (a `uint`). -/
structure Boid where
  Body : Body
  ThinkGroup : Nat
deriving DecidableEq

/-- A `sprite.Sheet`, with the fields the files read. -/
structure Sheet where
  Name : String
  FrameSize : Int
deriving DecidableEq

/-- An `item.Item`, with the fields the files read. -/
structure Item where
  Name : String
  Uses : Int
deriving DecidableEq

/-- An `item.Treasure`: a box on the ground that may hold an item. -/
structure Treasure where
  Item : Option Item
  Box : Rectangle
deriving DecidableEq

/-- The terrain speed table, `map[string]float64`. -/
abbrev Scales := List (String × ℚ)

/-- The external collaborators of the three files: the types they only pass
around and the functions they only call. Nothing is assumed about them. -/
structure Ext where
  /-- The type `world.World`. -/
  World : Type
  /-- The type `sprite.Anim`. -/
  Anim : Type
  /-- The type `ui.Camera`. -/
  Camera : Type
  /-- The type `ai.BoidInfo`. -/
  BoidInfo : Type
  /-- The sheet `astroSheet`, loaded when the program starts. -/
  astroSheet : Sheet
  /-- The zero value of `sprite.Anim`. -/
  animZero : Anim
  /-- The constant `ai.NThinkGroups`. -/
  NThinkGroups : Nat
  /-- The constant `item.ETele`. -/
  ETele : String
  /-- The constant `item.Uranium`. -/
  Uranium : String
  /-- The function `item.New`. -/
  itemNew : String → Option Item
  /-- The flag `*debug`. -/
  debug : Bool
  /-- The method `phys.Body.Move(w, scales)`: it changes the body only. -/
  bodyMove : World → Scales → Body → Body
  /-- The method `sprite.Anim.Move(sheet, vel)`. -/
  animMove : Sheet → Point → Anim → Anim
  /-- The method `world.World.Tile(p)`. -/
  tile : World → Point → Int × Int
  /-- The name `w.At(tx, ty).Terrain.Name`. -/
  terrainName : World → Int → Int → String
  /-- The method `phys.Body.Center()`. -/
  bodyCenter : Body → Point
  /-- The method `geom.Rectangle.Center()`. -/
  rectCenter : Rectangle → Point
  /-- The method `ui.Camera.Center(p)`. -/
  camCenter : Camera → Point → Camera
  /-- Modelled from the spec: what `ai.UpdateBoids(tick, boids, threat, w)` leaves
  in the boid at index `n`. It reads the tick, the profile and the boids of the
  population, the threat body and the world, and writes boids only. -/
  updateBoid : Nat → BoidInfo → List Boid → Body → World → Nat → Boid
  /-- The button masks `ui.Left`, `ui.Right`, `ui.Down`, `ui.Up`. -/
  Left : Nat
  /-- See `Left`. -/
  Right : Nat
  /-- See `Left`. -/
  Down : Nat
  /-- See `Left`. -/
  Up : Nat

/-! ## animal/herb.go -/

/-- The part of `animal.Info` that `herb.go` reads. -/
structure Info (E : Ext) where
  Sheet : Sheet
  Affinity : Scales
  BoidInfo : E.BoidInfo

/-- A herding animal: its animation state and its boid. -/
structure Herbivore (E : Ext) where
  Anim : E.Anim
  Boid : Boid

/-- A population of one species. `Info` is the species record that
`MakeHerbivores` loads (a non-nil pointer in every population it returns
without an error); `Herbs` is the slice of agents, in order, each a non-nil
pointer made by `Spawn`. -/
structure Herbivores (E : Ext) where
  Info : Info E
  Herbs : List (Herbivore E)

/-- The contract of `rand.Intn(n)` from the Go library: it panics when
`n <= 0` and otherwise returns a value of `[0, n)`. `r` is the number drawn
from the random source; every value of `[0, n)` is returned for some `r`. -/
def Intn (r n : Nat) : Option Nat :=
  if n = 0 then none else some (r % n)

/-- The method `Herbivores.Spawn(p, v)`; `r` is the number drawn from the random
source by `rand.Intn`. The size `sz` is the conversion `float64(FrameSize)` and
the max corner is made of the two `float64` sums `p.X+sz` and `p.Y+sz`. -/
def Herbivores.Spawn {E : Ext} (hs : Herbivores E) (r : Nat) (p v : Point) :
    Option (Herbivores E) := do
  let sz : ℚ := f64OfInt hs.Info.Sheet.FrameSize
  let body : Body := { Box := Rect p.X p.Y (f64Add p.X sz) (f64Add p.Y sz), Vel := v }
  let g ← Intn r E.NThinkGroups
  let h : Herbivore E := { Anim := E.animZero, Boid := { Body := body, ThinkGroup := g } }
  pure { hs with Herbs := hs.Herbs ++ [h] }

/-- The method `Herbivores.Len()`. -/
def Herbivores.Len {E : Ext} (hs : Herbivores E) : Nat := hs.Herbs.length

/-- The method `Herbivores.Boid(n)`; it panics when `n` is out of range. -/
def Herbivores.Boid {E : Ext} (hs : Herbivores E) (n : Nat) : Option Boid :=
  (hs.Herbs[n]?).map (fun h => h.Boid)

/-- The method `Herbivores.Move(w)`: every agent's animation is advanced with
its velocity, then its body is moved. -/
def Herbivores.Move {E : Ext} (hs : Herbivores E) (w : E.World) : Herbivores E :=
  { hs with Herbs := hs.Herbs.map (fun h =>
      { Anim := E.animMove hs.Info.Sheet h.Boid.Body.Vel h.Anim,
        Boid := { h.Boid with Body := E.bodyMove w hs.Info.Affinity h.Boid.Body } }) }

/-- The method `Herbivores.BoidInfo()`. -/
def Herbivores.BoidInfo {E : Ext} (hs : Herbivores E) : E.BoidInfo := hs.Info.BoidInfo

/-- Modelled from the spec: the call `ai.UpdateBoids(tick, hs, threat, w)`, which
is not part of the three files. It reaches the population through `Len`, `Boid`
and `BoidInfo`, so it rewrites the boids and nothing else; what it writes is
the arbitrary `E.updateBoid`. -/
def UpdateBoids {E : Ext} (tick : Nat) (hs : Herbivores E) (threat : Body) (w : E.World) :
    Herbivores E :=
  let boids := hs.Herbs.map (fun h => h.Boid)
  { hs with Herbs := hs.Herbs.enum.map (fun nh =>
      { Anim := nh.2.Anim, Boid := E.updateBoid tick hs.BoidInfo boids threat w nh.1 }) }

/-- Modelled from the spec: the rule of `ai.UpdateBoids` for the ticks on which
an agent recomputes its steering, `tick mod N == group`. -/
def thinksOn (E : Ext) (tick : Nat) (b : Boid) : Bool :=
  tick % E.NThinkGroups == b.ThinkGroup

/-! ## minima/player.go -/

/-- Two's-complement wrap of a Go `int` (64 bits). -/
def wrapInt64 (x : Int) : Int := (x + 2 ^ 63) % 2 ^ 64 - 2 ^ 63

/-- The constant `TileSize` of `game.go`. -/
def TileSize : Int := 32

/-- The table `baseScales`. -/
def baseScales : Scales :=
  [("g", 1), ("f", 1), ("m", 1), ("w", 1), ("d", 1), ("i", 1)]

/-- The struct `Player`. -/
structure Player (E : Ext) where
  wo : E.World
  body : Body
  tileX : Int
  tileY : Int
  info : String
  anim : E.Anim
  o2max : Int
  o2 : Int
  o2ticks : Int
  suit : List (Option Item)
  pack : List (Option Item)

/-- The function `NewPlayer(wo, p)`. -/
def NewPlayer {E : Ext} (wo : E.World) (p : Point) : Player E :=
  { wo := wo
    body := { Box := Rect p.X p.Y (f64Add p.X (TileSize : ℚ)) (f64Add p.Y (TileSize : ℚ)),
              Vel := ⟨0, 0⟩ }
    tileX := 0
    tileY := 0
    info := ""
    anim := E.animZero
    o2max := 50
    o2 := 50
    o2ticks := 0
    suit := [E.itemNew E.ETele, none]
    pack := [none, none, E.itemNew E.Uranium, none] }

/-- The method `Player.Move(w)`. -/
def Player.Move {E : Ext} (p : Player E) (w : E.World) : Player E :=
  let p1 : Player E := { p with o2ticks := wrapInt64 (p.o2ticks + 1) }
  let p2 : Player E :=
    if p1.o2ticks > p1.o2max ∧ p1.o2 > 0 then
      { p1 with o2 := wrapInt64 (p1.o2 - 1), o2ticks := 0 }
    else p1
  let p3 : Player E := { p2 with anim := E.animMove E.astroSheet p2.body.Vel p2.anim }
  let p4 : Player E := { p3 with body := E.bodyMove w baseScales p3.body }
  if !E.debug then p4
  else
    let t := E.tile w (E.bodyCenter p4.body)
    if t.1 = p4.tileX ∧ t.2 = p4.tileY then p4
    else
      { p4 with
        tileX := t.1
        tileY := t.2
        info := toString t.1 ++ "," ++ toString t.2 ++ ": " ++ E.terrainName w t.1 t.2 }

/-- The method `Player.RefillO2()`. -/
def Player.RefillO2 {E : Ext} (p : Player E) : Player E :=
  { p with o2 := p.o2max, o2ticks := 0 }

/-- A non-nil `*item.Item` read from a slot of the suit: the slot and the item
it points to. -/
structure ItemRef where
  slot : Nat
  item : Item
deriving DecidableEq

/-- The loop of `FindEtele` from slot `j` on, over the slots not yet visited.
Reading `i.Name` through a nil slot panics. -/
def FindEtele.scan (ETele : String) : List (Option Item) → Nat → Option (Option ItemRef)
  | [], _ => some none
  | none :: _, _ => none
  | some it :: rest, j =>
    if it.Name = ETele then some (some ⟨j, it⟩) else FindEtele.scan ETele rest (j + 1)

/-- The method `Player.FindEtele()`: `none` is a panic, `some none` the nil
pointer, `some (some r)` the pointer found. -/
def Player.FindEtele {E : Ext} (p : Player E) : Option (Option ItemRef) :=
  FindEtele.scan E.ETele p.suit 0

/-- The loop of `PutPack`: `fuel` slots remain to be visited, `j` is the next
one. -/
def PutPack.scan (i : Option Item) (pack : List (Option Item)) :
    Nat → Nat → List (Option Item) × Bool
  | 0, _ => (pack, false)
  | fuel + 1, j =>
    if pack[j]? = some none then (pack.set j i, true) else PutPack.scan i pack fuel (j + 1)

/-- The method `Player.PutPack(i)`: the player afterwards and the result. -/
def Player.PutPack {E : Ext} (p : Player E) (i : Option Item) : Player E × Bool :=
  let r := PutPack.scan i p.pack p.pack.length 0
  ({ p with pack := r.1 }, r.2)

/-! ## minima/game.go -/

/-- The struct `Base`, with the field `game.go` reads. -/
structure Base where
  Box : Rectangle
deriving DecidableEq

/-- The screens `Update` can push. -/
inductive Screen where
  | gameOver
deriving DecidableEq

/-- The part of `ui.ScreenStack` that `Update` reads and writes. -/
structure ScreenStack where
  Buttons : Nat
  NFrames : Nat
  screens : List Screen
deriving DecidableEq

/-- The method `ScreenStack.Push`. -/
def ScreenStack.Push (stk : ScreenStack) (s : Screen) : ScreenStack :=
  { stk with screens := s :: stk.screens }

/-- The struct `Game`. -/
structure Game (E : Ext) where
  wo : E.World
  cam : E.Camera
  base : Base
  Astro : Player E
  Herbivores : List (MinGame.Herbivores E)
  Treasure : List MinGame.Treasure

/-- The constant `speed` of `Update`, in pixels. -/
def speed : ℚ := 4

/-- The first block of `Update` (the player is out of oxygen): the game is over,
or the E-Tele brings the player back to the base. -/
def Game.teleport {E : Ext} (e : Game E) (stk : ScreenStack) : Option (Game E × ScreenStack) :=
  if e.Astro.o2 = 0 ∧ !E.debug then
    match e.Astro.FindEtele with
    | none => none
    | some none => some (e, stk.Push Screen.gameOver)
    | some (some et) =>
      if et.item.Uses = 0 then some (e, stk.Push Screen.gameOver)
      else
        let a0 : Player E :=
          { e.Astro with suit := e.Astro.suit.set et.slot (some { et.item with Uses := et.item.Uses - 1 }) }
        let a1 : Player E := { a0 with body := { a0.body with Vel := Pt 0 0 } }
        let dims := Pt a1.body.Box.Dx a1.body.Box.Dy
        let a2 : Player E := { a1 with body := { a1.body with Box := { a1.body.Box with Min := e.base.Box.Min } } }
        let a3 : Player E :=
          { a2 with body := { a2.body with Box := { a2.body.Box with Max := e.base.Box.Min.Add dims } } }
        some ({ e with Astro := a3.RefillO2 }, stk)
  else some (e, stk)

/-- The velocity `Update` gives the player from the pressed buttons. -/
def buttonVel (E : Ext) (buttons : Nat) : Point :=
  let v0 := Pt 0 0
  let v1 := if buttons &&& E.Left ≠ 0 then { v0 with X := f64Sub v0.X speed } else v0
  let v2 := if buttons &&& E.Right ≠ 0 then { v1 with X := f64Add v1.X speed } else v1
  let v3 := if buttons &&& E.Down ≠ 0 then { v2 with Y := f64Add v2.Y speed } else v2
  if buttons &&& E.Up ≠ 0 then { v3 with Y := f64Sub v3.Y speed } else v3

/-- The loop of `Update` over the populations: `fuel` populations remain, `i`
is the next one. -/
def Game.herdLoop {E : Ext} (stk : ScreenStack) : Nat → Nat → Game E → Game E
  | 0, _, e => e
  | fuel + 1, i, e =>
    match e.Herbivores[i]? with
    | none => e
    | some hs =>
      let hs1 := UpdateBoids stk.NFrames hs e.Astro.body e.wo
      let hs2 := hs1.Move e.wo
      Game.herdLoop stk fuel (i + 1) { e with Herbivores := e.Herbivores.set i hs2 }

/-- The middle of `Update`: the player's velocity is set from the buttons, the
player is moved and the camera is centred on the player. -/
def Game.steer {E : Ext} (e : Game E) (stk : ScreenStack) : Game E :=
  let e1 : Game E := { e with Astro := { e.Astro with body := { e.Astro.body with Vel := buttonVel E stk.Buttons } } }
  let e2 : Game E := { e1 with Astro := e1.Astro.Move e1.wo }
  { e2 with cam := E.camCenter e2.cam (E.rectCenter e2.Astro.body.Box) }

/-- The rest of `Update` after the teleport block: the player is steered and
moved, then every population is updated and moved. -/
def Game.advance {E : Ext} (e : Game E) (stk : ScreenStack) : Game E :=
  Game.herdLoop stk (e.steer stk).Herbivores.length 0 (e.steer stk)

/-- The method `Game.Update(stk)`. -/
def Game.Update {E : Ext} (e : Game E) (stk : ScreenStack) : Option (Game E × ScreenStack) :=
  (e.teleport stk).map (fun r => (r.1.advance r.2, r.2))

/-- The sequence of calls `Move(w)` for the worlds of `ws`, in order. -/
def Player.Moves {E : Ext} (p : Player E) (ws : List E.World) : Player E :=
  ws.foldl (fun q w => q.Move w) p

/-- The oxygen invariant of a player that started fresh and has moved `n` times:
before call 2550 the level is `50 - n / 51` and the tick counter is `n mod 51`;
from call 2550 on the level is 0. -/
def o2Inv {E : Ext} (p : Player E) (n : Nat) : Prop :=
  p.o2max = 50 ∧
    ((n < 2550 ∧ p.o2 = 50 - ((n / 51 : Nat) : Int) ∧ p.o2ticks = ((n % 51 : Nat) : Int)) ∨
      (2550 ≤ n ∧ p.o2 = 0))

/-! ## A concrete instance, for evaluating the definitions -/

/-- An instance of the collaborators: four think-groups, a body that moves by
its velocity, and a boid that takes the threat's corner as its velocity on the
ticks of its group. -/
def Ext.sample : Ext where
  World := Unit
  Anim := Nat
  Camera := Point
  BoidInfo := Unit
  astroSheet := ⟨"Astronaut", 32⟩
  animZero := 0
  NThinkGroups := 4
  ETele := "E-Tele"
  Uranium := "Uranium"
  itemNew := fun n => some ⟨n, 1⟩
  debug := false
  bodyMove := fun _ _ b => { b with Box := ⟨b.Box.Min.Add b.Vel, b.Box.Max.Add b.Vel⟩ }
  animMove := fun _ _ a => a + 1
  tile := fun _ _ => (0, 0)
  terrainName := fun _ _ _ => "g"
  bodyCenter := fun b => b.Box.Min
  rectCenter := fun r => r.Min
  camCenter := fun _ p => p
  updateBoid := fun tick _ boids threat _ n =>
    match boids[n]? with
    | some b => if tick % 4 = b.ThinkGroup then { b with Body := { b.Body with Vel := threat.Box.Min } } else b
    | none => ⟨Body.zero, 0⟩
  Left := 1
  Right := 2
  Down := 4
  Up := 8

/-- A population of two cows. -/
def sampleHerd : Herbivores Ext.sample :=
  { Info := { Sheet := ⟨"Cow", 16⟩, Affinity := baseScales, BoidInfo := () }
    Herbs := [⟨(0 : Nat), ⟨⟨Rect 0 0 16 16, Pt 1 0⟩, 0⟩⟩,
              ⟨(0 : Nat), ⟨⟨Rect 40 40 56 56, Pt 0 1⟩, 1⟩⟩] }

/-- A game with the fresh player at the origin, the base at `(64, 64)` and one
population. -/
def sampleGame : Game Ext.sample :=
  { wo := ()
    cam := Pt 0 0
    base := ⟨Rect 64 64 96 96⟩
    Astro := NewPlayer () (Pt 0 0)
    Herbivores := [sampleHerd]
    Treasure := [] }

/-- The game `sampleGame` with the player out of oxygen, away from the base. -/
def sampleGameNoO2 : Game Ext.sample :=
  { sampleGame with Astro := { sampleGame.Astro with o2 := 0, body := ⟨Rect 10 20 42 52, Pt 4 0⟩ } }

/-- No button pressed but `Right`, at frame 0. -/
def sampleStack : ScreenStack := ⟨2, 0, []⟩

/-! ## Spawn -/

theorem Spawn_eq {E : Ext} (hN : 0 < E.NThinkGroups) (hs : Herbivores E) (r : Nat)
    (p v : Point) :
    hs.Spawn r p v = some { hs with Herbs := hs.Herbs ++
      [{ Anim := E.animZero,
         Boid := { Body := { Box := Rect p.X p.Y (f64Add p.X (f64OfInt hs.Info.Sheet.FrameSize))
                              (f64Add p.Y (f64OfInt hs.Info.Sheet.FrameSize)), Vel := v },
                   ThinkGroup := r % E.NThinkGroups } }] } := by
  have hne : E.NThinkGroups ≠ 0 := Nat.pos_iff_ne_zero.mp hN
  simp [Herbivores.Spawn, Intn, hne]

/-- C1: with a positive number of think-groups, `Spawn(p, v)` on a population of
size `k` returns a population of size `k + 1`, and every agent at an index
below `k` is the agent that was there before (so its box, its velocity and its
think-group are unchanged) and is still reached by `Boid` at the same index. -/
theorem Spawn_appends (E : Ext) (hN : 0 < E.NThinkGroups) (hs : Herbivores E) (r : Nat)
    (p v : Point) :
    ∃ hs', hs.Spawn r p v = some hs' ∧ hs'.Len = hs.Len + 1 ∧
      ∀ i, i < hs.Len → hs'.Herbs[i]? = hs.Herbs[i]? ∧ hs'.Boid i = hs.Boid i ∧
        (hs'.Boid i).isSome = true := by
  refine ⟨_, Spawn_eq hN hs r p v, ?_, ?_⟩
  · simp [Herbivores.Len]
  · intro i hi
    have hi' : i < hs.Herbs.length := hi
    have h1 : ∀ h : Herbivore E, (hs.Herbs ++ [h])[i]? = hs.Herbs[i]? :=
      fun h => List.getElem?_append_left hi'
    refine ⟨h1 _, ?_, ?_⟩
    · simp only [Herbivores.Boid, h1]
    · simp only [Herbivores.Boid, h1, List.getElem?_eq_getElem hi']
      rfl

theorem Spawn_appends_witness :
    0 < Ext.sample.NThinkGroups ∧
    ∃ hs', sampleHerd.Spawn 7 (Pt 3 5) (Pt 1 1) = some hs' ∧ hs'.Len = sampleHerd.Len + 1 ∧
      ∀ i, i < sampleHerd.Len → hs'.Herbs[i]? = sampleHerd.Herbs[i]? ∧
        hs'.Boid i = sampleHerd.Boid i ∧ (hs'.Boid i).isSome = true :=
  ⟨by decide, Spawn_appends Ext.sample (by decide) sampleHerd 7 (Pt 3 5) (Pt 1 1)⟩

/-- The value of `roundF64` at a rational whose lowest terms and whose rounded
significand and exponent are known. -/
theorem roundF64_of_parts (q : ℚ) (n : Int) (d : Nat) (m k : Int) (hq : q ≠ 0)
    (hnum : q.num = n) (hden : q.den = d) (hparts : roundParts n d = (m, k)) :
    roundF64 q = (m : ℚ) * (2 : ℚ) ^ k := by
  unfold roundF64
  rw [if_neg hq, hnum, hden, hparts]

/-- The conversion `float64(16)` is exact. -/
theorem f64OfInt_16 : f64OfInt 16 = 16 := by
  have h := roundF64_of_parts 16 16 1 4503599627370496 (-48) (by norm_num) rfl rfl (by decide)
  unfold f64OfInt
  norm_num at h ⊢
  exact h

/-- The sum `3 + 16` is exact in `float64`. -/
theorem f64Add_3_16 : f64Add 3 16 = 3 + 16 := by
  have h := roundF64_of_parts 19 19 1 5348024557502464 (-48) (by norm_num) rfl rfl (by decide)
  unfold f64Add
  norm_num at h ⊢
  exact h

/-- The sum `5 + 16` is exact in `float64`. -/
theorem f64Add_5_16 : f64Add 5 16 = 5 + 16 := by
  have h := roundF64_of_parts 21 21 1 5910974510923776 (-48) (by norm_num) rfl rfl (by decide)
  unfold f64Add
  norm_num at h ⊢
  exact h

/-- The width `16 + 2 ^ -46` is itself a `float64`: subtracting the corners in
`float64` gives the same width as subtracting them exactly. -/
theorem f64Sub_123_16 :
    f64Sub (8687443681197687 / 70368744177664 + 16 + 1 / 70368744177664)
      (8687443681197687 / 70368744177664) = 16 + 1 / 70368744177664 := by
  have hnum : ((1125899906842625 : ℚ) / 70368744177664).num = 1125899906842625 := by
    have h := @Rat.num_div_eq_of_coprime 1125899906842625 70368744177664 (by norm_num)
      (by norm_num)
    simpa using h
  have hden : ((1125899906842625 : ℚ) / 70368744177664).den = 70368744177664 := by
    have h := @Rat.den_div_eq_of_coprime 1125899906842625 70368744177664 (by norm_num)
      (by norm_num)
    have h2 : (((1125899906842625 : ℚ) / 70368744177664).den : Int) = 70368744177664 := by
      simpa using h
    omega
  have h := roundF64_of_parts (1125899906842625 / 70368744177664) 1125899906842625
    70368744177664 4503599627370500 (-48) (by norm_num) hnum hden (by decide)
  have hq : ((8687443681197687 : ℚ) / 70368744177664 + 16 + 1 / 70368744177664) -
      8687443681197687 / 70368744177664 = 1125899906842625 / 70368744177664 := by
    norm_num
  unfold f64Sub
  rw [hq, h]
  norm_num

/-- At the position `(3, 5)` with `FrameSize = 16` both sums of `Spawn` are
exact. -/
theorem Spawn_sums_exact_example :
    f64Add (Pt 3 5).X (f64OfInt sampleHerd.Info.Sheet.FrameSize) =
      (Pt 3 5).X + sampleHerd.Info.Sheet.FrameSize ∧
    f64Add (Pt 3 5).Y (f64OfInt sampleHerd.Info.Sheet.FrameSize) =
      (Pt 3 5).Y + sampleHerd.Info.Sheet.FrameSize := by
  have hsz : f64OfInt sampleHerd.Info.Sheet.FrameSize = 16 := f64OfInt_16
  have h16 : ((sampleHerd.Info.Sheet.FrameSize : Int) : ℚ) = 16 := by
    simp [sampleHerd]
  rw [hsz, h16]
  exact ⟨f64Add_3_16, f64Add_5_16⟩

theorem unique_tick_in_window (N g t0 : Nat) (hg : g < N) :
    ∃! t, t0 ≤ t ∧ t < t0 + N ∧ t % N = g := by
  have hN : 0 < N := Nat.lt_of_le_of_lt (Nat.zero_le _) hg
  have hm : t0 % N < N := Nat.mod_lt _ hN
  have hw : (t0 + (g + N - t0 % N) % N) % N = g := by
    have h4 : t0 % N + (g + N - t0 % N) = g + N := by omega
    calc (t0 + (g + N - t0 % N) % N) % N
        = (t0 + (g + N - t0 % N)) % N := Nat.add_mod_mod _ _ _
      _ = (t0 % N + (g + N - t0 % N)) % N := (Nat.mod_add_mod _ _ _).symm
      _ = (g + N) % N := by rw [h4]
      _ = g := by rw [Nat.add_mod_right, Nat.mod_eq_of_lt hg]
  refine ⟨t0 + (g + N - t0 % N) % N, ⟨Nat.le_add_right _ _, ?_, hw⟩, ?_⟩
  · exact Nat.add_lt_add_left (Nat.mod_lt _ hN) _
  · rintro t ⟨h1, h2, h3⟩
    have key : ∀ a b : Nat, a ≤ b → b < a + N → a % N = b % N → a = b := by
      intro a b hab hb hmod
      have h0 : (b - a) % N = 0 := Nat.sub_mod_eq_zero_of_mod_eq hmod.symm
      have hlt : b - a < N := by omega
      rw [Nat.mod_eq_of_lt hlt] at h0
      omega
    have hd : (g + N - t0 % N) % N < N := Nat.mod_lt _ hN
    rcases Nat.le_total t (t0 + (g + N - t0 % N) % N) with hle | hle
    · exact key t _ hle (by omega) (by rw [h3, hw])
    · exact (key _ t hle (by omega) (by rw [h3, hw])).symm

/-- C3: with `N = NThinkGroups > 0`, whatever number `r` the random source
draws, the think-group `g` that `Spawn` gives the new agent satisfies `g < N`
(and `0 <= g`, as a `uint`), and in every window of `N` consecutive ticks
`[t0, t0 + N)` there is exactly one tick on which the agent recomputes its
steering, that is, one `t` with `t mod N == g`. -/
theorem Spawn_thinks_once (E : Ext) (hN : 0 < E.NThinkGroups) (hs : Herbivores E) (r : Nat)
    (p v : Point) (t0 : Nat) :
    ∃ hs' b, hs.Spawn r p v = some hs' ∧ hs'.Boid (hs'.Len - 1) = some b ∧
      b.ThinkGroup < E.NThinkGroups ∧
      ∃! t, t0 ≤ t ∧ t < t0 + E.NThinkGroups ∧ thinksOn E t b = true := by
  have hg : r % E.NThinkGroups < E.NThinkGroups := Nat.mod_lt _ hN
  refine ⟨_, { Body := { Box := Rect p.X p.Y (f64Add p.X (f64OfInt hs.Info.Sheet.FrameSize))
                              (f64Add p.Y (f64OfInt hs.Info.Sheet.FrameSize)), Vel := v },
               ThinkGroup := r % E.NThinkGroups },
    Spawn_eq hN hs r p v, ?_, hg, ?_⟩
  · simp [Herbivores.Boid, Herbivores.Len]
  · simpa [thinksOn] using unique_tick_in_window E.NThinkGroups _ t0 hg

theorem Spawn_thinks_once_witness :
    0 < Ext.sample.NThinkGroups ∧
    ∃ hs' b, sampleHerd.Spawn 7 (Pt 3 5) (Pt 1 1) = some hs' ∧
      hs'.Boid (hs'.Len - 1) = some b ∧ b.ThinkGroup < Ext.sample.NThinkGroups ∧
      ∃! t, 10 ≤ t ∧ t < 10 + Ext.sample.NThinkGroups ∧ thinksOn Ext.sample t b = true :=
  ⟨by decide, Spawn_thinks_once Ext.sample (by decide) sampleHerd 7 (Pt 3 5) (Pt 1 1) 10⟩

/-! ## PutPack -/

theorem PutPack.scan_spec (i : Option Item) (pack : List (Option Item)) :
    ∀ fuel j, j + fuel = pack.length →
      ((PutPack.scan i pack fuel j).2 = true →
        ∃ k, j ≤ k ∧ k < pack.length ∧ pack[k]? = some none ∧
          (∀ m, j ≤ m → m < k → pack[m]? ≠ some none) ∧
          (PutPack.scan i pack fuel j).1 = pack.set k i) ∧
      ((PutPack.scan i pack fuel j).2 = false →
        (∀ m, j ≤ m → pack[m]? ≠ some none) ∧ (PutPack.scan i pack fuel j).1 = pack) := by
  intro fuel
  induction fuel with
  | zero =>
    intro j hj
    refine ⟨fun h => by simp [PutPack.scan] at h, fun _ => ⟨?_, rfl⟩⟩
    intro m hm
    have hlen : pack.length ≤ m := by omega
    rw [List.getElem?_eq_none hlen]
    simp
  | succ fuel ih =>
    intro j hj
    by_cases h : pack[j]? = some none
    · have hs : PutPack.scan i pack (fuel + 1) j = (pack.set j i, true) := by
        simp [PutPack.scan, h]
      rw [hs]
      refine ⟨fun _ => ⟨j, Nat.le_refl _, by omega, h, ?_, rfl⟩, fun hf => by simp at hf⟩
      intro m h1 h2
      omega
    · have hs : PutPack.scan i pack (fuel + 1) j = PutPack.scan i pack fuel (j + 1) := by
        simp [PutPack.scan, h]
      rw [hs]
      obtain ⟨ih1, ih2⟩ := ih (j + 1) (by omega)
      refine ⟨fun ht => ?_, fun hf => ?_⟩
      · obtain ⟨k, hk1, hk2, hk3, hk4, hk5⟩ := ih1 ht
        refine ⟨k, by omega, hk2, hk3, ?_, hk5⟩
        intro m hm1 hm2
        by_cases hmj : m = j
        · rw [hmj]; exact h
        · exact hk4 m (by omega) hm2
      · obtain ⟨h1, h2⟩ := ih2 hf
        refine ⟨?_, h2⟩
        intro m hm
        by_cases hmj : m = j
        · rw [hmj]; exact h
        · exact h1 m (by omega)

/-- C4: `PutPack(i)` returns true exactly when the pack had a nil slot before
the call. When it returns true, the lowest-index nil slot `k` now holds `i` and
every other slot (and every other field of the player) is unchanged; when it
returns false the player is unchanged; the number of slots never changes. -/
theorem PutPack_spec (E : Ext) (p : Player E) (i : Option Item) :
    ((p.PutPack i).2 = true ↔ ∃ k : Nat, p.pack[k]? = some none) ∧
    ((p.PutPack i).2 = true →
      ∃ k, k < p.pack.length ∧ p.pack[k]? = some none ∧
        (∀ m, m < k → p.pack[m]? ≠ some none) ∧
        (p.PutPack i).1 = { p with pack := p.pack.set k i } ∧
        (p.PutPack i).1.pack[k]? = some i ∧
        ∀ m, m ≠ k → (p.PutPack i).1.pack[m]? = p.pack[m]?) ∧
    ((p.PutPack i).2 = false → (p.PutPack i).1 = p) ∧
    (p.PutPack i).1.pack.length = p.pack.length := by
  obtain ⟨h1, h2⟩ := PutPack.scan_spec i p.pack p.pack.length 0 (by omega)
  have hT : (p.PutPack i).2 = true →
      ∃ k, k < p.pack.length ∧ p.pack[k]? = some none ∧
        (∀ m, m < k → p.pack[m]? ≠ some none) ∧
        (p.PutPack i).1 = { p with pack := p.pack.set k i } ∧
        (p.PutPack i).1.pack[k]? = some i ∧
        ∀ m, m ≠ k → (p.PutPack i).1.pack[m]? = p.pack[m]? := by
    intro ht
    obtain ⟨k, -, hk2, hk3, hk4, hk5⟩ := h1 ht
    have hp : (p.PutPack i).1 = { p with pack := p.pack.set k i } := by
      simp only [Player.PutPack, hk5]
    refine ⟨k, hk2, hk3, fun m hm => hk4 m (Nat.zero_le _) hm, hp, ?_, ?_⟩
    · rw [hp]
      simp [List.getElem?_set, hk2]
    · intro m hm
      rw [hp]
      simp [List.getElem?_set, Ne.symm hm]
  have hF : (p.PutPack i).2 = false → (p.PutPack i).1 = p := by
    intro hf
    obtain ⟨-, h3⟩ := h2 hf
    simp only [Player.PutPack, h3]
  refine ⟨⟨fun ht => ?_, fun hex => ?_⟩, hT, hF, ?_⟩
  · obtain ⟨k, -, hk, -⟩ := hT ht
    exact ⟨k, hk⟩
  · obtain ⟨k, hk⟩ := hex
    by_contra hne
    have hf : (p.PutPack i).2 = false := by simpa using hne
    exact (h2 hf).1 k (Nat.zero_le _) hk
  · cases hb : (p.PutPack i).2
    · rw [hF hb]
    · obtain ⟨k, -, -, -, hp, -⟩ := hT hb
      rw [hp]
      simp

/-! ## FindEtele -/

/-- On a suit without nil slots the loop does not panic: it returns the first
slot, from `j` on, whose item is named `ETele`, or nil when there is none. -/
theorem FindEtele.scan_of_all_some (ETele : String) (items : List Item) (j : Nat) :
    FindEtele.scan ETele (items.map some) j =
      some ((items.enumFrom j).find? (fun r => r.2.Name = ETele) |>.map
        (fun r => (⟨r.1, r.2⟩ : ItemRef))) := by
  induction items generalizing j with
  | nil => rfl
  | cons it rest ih =>
    by_cases h : it.Name = ETele
    · simp [FindEtele.scan, List.enumFrom, h]
    · simp [FindEtele.scan, List.enumFrom, h, ih]

/-- C5: a suit whose first slot is nil and whose second slot holds the E-Tele
makes `FindEtele` panic on the nil slot instead of returning the E-Tele, and a
suit that is one nil slot makes it panic instead of returning nil. -/
theorem FindEtele_nil_slot_panics (E : Ext) (wo : E.World) (pt : Point) :
    ({ (NewPlayer wo pt : Player E) with suit := [none, some ⟨E.ETele, 1⟩] }).FindEtele = none ∧
    ({ (NewPlayer wo pt : Player E) with suit := [none] }).FindEtele = none := by
  constructor <;> rfl

/-! ## The teleport of Update -/

/-- C6: when the player is out of oxygen, debug is off and `FindEtele` finds an
E-Tele with `Uses != 0`, the teleport block of `Update` does not fail, and after
it the body's box has the width and the height it had before and its min corner
is the min corner of the base's box (coordinates are exact). -/
theorem teleport_keeps_size (E : Ext) (e : Game E) (stk : ScreenStack) (et : ItemRef)
    (ho2 : e.Astro.o2 = 0) (hdbg : E.debug = false)
    (hfind : e.Astro.FindEtele = some (some et)) (huses : et.item.Uses ≠ 0) :
    ∃ e', e.teleport stk = some (e', stk) ∧
      e'.Astro.body.Box.Dx = e.Astro.body.Box.Dx ∧
      e'.Astro.body.Box.Dy = e.Astro.body.Box.Dy ∧
      e'.Astro.body.Box.Min = e.base.Box.Min := by
  unfold Game.teleport
  rw [if_pos ⟨ho2, by simp [hdbg]⟩]
  simp only [hfind]
  rw [if_neg huses]
  refine ⟨_, rfl, ?_, ?_, ?_⟩
  · simp [Player.RefillO2, Rectangle.Dx, Point.Add, Pt]
  · simp [Player.RefillO2, Rectangle.Dy, Point.Add, Pt]
  · simp [Player.RefillO2]

theorem teleport_keeps_size_witness :
    ∃ e', sampleGameNoO2.teleport sampleStack = some (e', sampleStack) ∧
      e'.Astro.body.Box.Dx = sampleGameNoO2.Astro.body.Box.Dx ∧
      e'.Astro.body.Box.Dy = sampleGameNoO2.Astro.body.Box.Dy ∧
      e'.Astro.body.Box.Min = sampleGameNoO2.base.Box.Min :=
  teleport_keeps_size Ext.sample sampleGameNoO2 sampleStack ⟨0, ⟨"E-Tele", 1⟩⟩
    (by rfl) (by rfl) (by decide) (by decide)

/-! ## The order of a tick -/

/-- The loop over the populations leaves the player, the world and the rest of
the game alone; it leaves the populations below `i` alone and replaces every
other population by its update against the player's body followed by its
move. -/
theorem Game.herdLoop_spec {E : Ext} (stk : ScreenStack) :
    ∀ (fuel i : Nat) (e : Game E), i + fuel = e.Herbivores.length →
      (Game.herdLoop stk fuel i e).Astro = e.Astro ∧
      (Game.herdLoop stk fuel i e).wo = e.wo ∧
      (Game.herdLoop stk fuel i e).cam = e.cam ∧
      (Game.herdLoop stk fuel i e).base = e.base ∧
      (Game.herdLoop stk fuel i e).Treasure = e.Treasure ∧
      ∀ m : Nat, (Game.herdLoop stk fuel i e).Herbivores[m]? =
        if i ≤ m then
          (e.Herbivores[m]?).map (fun hs => (UpdateBoids stk.NFrames hs e.Astro.body e.wo).Move e.wo)
        else e.Herbivores[m]? := by
  intro fuel
  induction fuel with
  | zero =>
    intro i e hi
    refine ⟨rfl, rfl, rfl, rfl, rfl, ?_⟩
    intro m
    by_cases hm : i ≤ m
    · have hlen : e.Herbivores.length ≤ m := by omega
      simp [Game.herdLoop, hm, List.getElem?_eq_none hlen]
    · simp [Game.herdLoop, hm]
  | succ fuel ih =>
    intro i e hi
    have hlt : i < e.Herbivores.length := by omega
    have hget : e.Herbivores[i]? = some (e.Herbivores[i]) := List.getElem?_eq_getElem hlt
    have hstep : Game.herdLoop stk (fuel + 1) i e =
        Game.herdLoop stk fuel (i + 1)
          { e with Herbivores := (e.Herbivores.set i
              ((UpdateBoids stk.NFrames e.Herbivores[i] e.Astro.body e.wo).Move e.wo)) } := by
      simp [Game.herdLoop, hget]
    rw [hstep]
    obtain ⟨h1, h2, h3, h4, h5, h6⟩ := ih (i + 1)
      { e with Herbivores := (e.Herbivores.set i
          ((UpdateBoids stk.NFrames e.Herbivores[i] e.Astro.body e.wo).Move e.wo)) }
      (by simp; omega)
    refine ⟨h1, h2, h3, h4, h5, ?_⟩
    intro m
    rw [h6 m]
    by_cases h7 : i + 1 ≤ m
    · have h8 : i ≤ m := by omega
      have h9 : i ≠ m := by omega
      simp [h7, h8, List.getElem?_set, h9]
    · by_cases h8 : i = m
      · subst h8
        simp [List.getElem?_set, hlt]
      · have h9 : ¬ i ≤ m := by omega
        simp [h7, h9, List.getElem?_set, h8]

theorem Game.steer_Astro {E : Ext} (e : Game E) (stk : ScreenStack) :
    (e.steer stk).Astro =
      ({ e.Astro with body := { e.Astro.body with Vel := buttonVel E stk.Buttons } } :
        Player E).Move e.wo := rfl

theorem Game.advance_spec {E : Ext} (e : Game E) (stk : ScreenStack) :
    (e.advance stk).Astro = (e.steer stk).Astro ∧
    (e.advance stk).wo = e.wo ∧
    (e.advance stk).Herbivores = e.Herbivores.map
      (fun hs => (UpdateBoids stk.NFrames hs (e.steer stk).Astro.body e.wo).Move e.wo) := by
  obtain ⟨h1, h2, -, -, -, h6⟩ :=
    Game.herdLoop_spec stk (e.steer stk).Herbivores.length 0 (e.steer stk) (by simp)
  refine ⟨h1, h2, ?_⟩
  apply List.ext_getElem?
  intro m
  have h7 := h6 m
  simp only [Nat.zero_le, if_true] at h7
  unfold Game.advance
  rw [h7, List.getElem?_map]
  rfl

/-- C7: when the teleport block of `Update` does not fail, `Update` returns, the
player it leaves is the player steered by the buttons and then moved, and every
population it leaves is the population updated by `ai.UpdateBoids` against the
body of that moved player (not the body at the start of the tick) and then
moved by its own `Move`. -/
theorem Update_moves_player_first (E : Ext) (e e1 : Game E) (stk stk1 : ScreenStack)
    (h : e.teleport stk = some (e1, stk1)) :
    ∃ e', e.Update stk = some (e', stk1) ∧
      e'.Astro =
        ({ e1.Astro with body := { e1.Astro.body with Vel := buttonVel E stk1.Buttons } } :
          Player E).Move e1.wo ∧
      e'.wo = e1.wo ∧
      e'.Herbivores = e1.Herbivores.map
        (fun hs => (UpdateBoids stk1.NFrames hs e'.Astro.body e1.wo).Move e1.wo) := by
  obtain ⟨h1, h2, h3⟩ := Game.advance_spec e1 stk1
  refine ⟨e1.advance stk1, ?_, ?_, h2, ?_⟩
  · unfold Game.Update
    rw [h]
    rfl
  · rw [h1, Game.steer_Astro]
  · rw [h3, h1]

theorem Update_moves_player_first_witness :
    ∃ e', sampleGame.Update sampleStack = some (e', sampleStack) ∧
      e'.Astro =
        ({ sampleGame.Astro with
            body := { sampleGame.Astro.body with Vel := buttonVel Ext.sample sampleStack.Buttons } } :
          Player Ext.sample).Move sampleGame.wo ∧
      e'.wo = sampleGame.wo ∧
      e'.Herbivores = sampleGame.Herbivores.map
        (fun hs => (UpdateBoids sampleStack.NFrames hs e'.Astro.body sampleGame.wo).Move
          sampleGame.wo) :=
  Update_moves_player_first Ext.sample sampleGame sampleGame sampleStack sampleStack (by rfl)

/-! ## Oxygen -/

theorem Player.Move_o2max {E : Ext} (p : Player E) (w : E.World) :
    (p.Move w).o2max = p.o2max := by
  unfold Player.Move
  simp only []
  split_ifs <;> rfl

theorem Player.Move_o2 {E : Ext} (p : Player E) (w : E.World) :
    (p.Move w).o2 =
      if wrapInt64 (p.o2ticks + 1) > p.o2max ∧ p.o2 > 0 then wrapInt64 (p.o2 - 1) else p.o2 := by
  unfold Player.Move
  simp only []
  split_ifs <;> rfl

theorem Player.Move_o2ticks {E : Ext} (p : Player E) (w : E.World) :
    (p.Move w).o2ticks =
      if wrapInt64 (p.o2ticks + 1) > p.o2max ∧ p.o2 > 0 then 0 else wrapInt64 (p.o2ticks + 1) := by
  unfold Player.Move
  simp only []
  split_ifs <;> rfl

theorem o2Inv_Move {E : Ext} (p : Player E) (w : E.World) (n : Nat) (h : o2Inv p n) :
    o2Inv (p.Move w) (n + 1) := by
  obtain ⟨hmax, hcase⟩ := h
  refine ⟨by rw [Player.Move_o2max, hmax], ?_⟩
  rw [Player.Move_o2, Player.Move_o2ticks, hmax]
  rcases hcase with ⟨hn, ho, ht⟩ | ⟨hn, ho⟩
  · have hw : wrapInt64 (p.o2ticks + 1) = p.o2ticks + 1 := by
      unfold wrapInt64
      omega
    have hw2 : wrapInt64 (p.o2 - 1) = p.o2 - 1 := by
      unfold wrapInt64
      omega
    rw [hw, hw2]
    by_cases hc : p.o2ticks + 1 > 50 ∧ p.o2 > 0
    · rw [if_pos hc, if_pos hc]
      by_cases hlast : n + 1 < 2550
      · left
        omega
      · right
        omega
    · rw [if_neg hc, if_neg hc]
      left
      omega
  · right
    have hc : ¬ (wrapInt64 (p.o2ticks + 1) > 50 ∧ p.o2 > 0) := by
      rw [ho]
      simp
    rw [if_neg hc]
    exact ⟨by omega, ho⟩

theorem o2Inv_Moves {E : Ext} (ws : List E.World) :
    ∀ (p : Player E) (n : Nat), o2Inv p n → o2Inv (p.Moves ws) (n + ws.length) := by
  induction ws with
  | nil => intro p n h; exact h
  | cons w rest ih =>
    intro p n h
    have h2 := ih (p.Move w) (n + 1) (o2Inv_Move p w n h)
    have e : n + 1 + rest.length = n + (w :: rest).length := by
      simp only [List.length_cons]
      omega
    rw [e] at h2
    exact h2

/-- C8: a fresh player (`o2 = o2max = 50`, `o2ticks = 0`) that has made `n`
calls to `Move` (in any worlds, with no `RefillO2` in between) has
`o2 = max(0, 50 - floor(n / 51))`, so the level drops by one every
`o2max + 1 = 51` calls and stays within `[0, o2max]`; and `RefillO2` sets
`o2 = o2max` and `o2ticks = 0` on every player. -/
theorem o2_after_moves (E : Ext) (wo : E.World) (pt : Point) (ws : List E.World) :
    (NewPlayer wo pt : Player E).o2 = 50 ∧ (NewPlayer wo pt : Player E).o2max = 50 ∧
    (NewPlayer wo pt : Player E).o2ticks = 0 ∧
    ((NewPlayer wo pt : Player E).Moves ws).o2 = max 0 (50 - ((ws.length / 51 : Nat) : Int)) ∧
    0 ≤ ((NewPlayer wo pt : Player E).Moves ws).o2 ∧
    ((NewPlayer wo pt : Player E).Moves ws).o2 ≤ ((NewPlayer wo pt : Player E).Moves ws).o2max ∧
    ∀ p : Player E, p.RefillO2.o2 = p.o2max ∧ p.RefillO2.o2ticks = 0 ∧
      p.RefillO2.o2max = p.o2max := by
  have h0 : o2Inv (NewPlayer wo pt : Player E) 0 := by
    refine ⟨rfl, Or.inl ⟨by omega, ?_, ?_⟩⟩ <;> simp [NewPlayer]
  have h := o2Inv_Moves ws _ 0 h0
  rw [Nat.zero_add] at h
  obtain ⟨hmax, hcase⟩ := h
  refine ⟨rfl, rfl, rfl, ?_, ?_, ?_, fun p => ⟨rfl, rfl, rfl⟩⟩
  · rcases hcase with ⟨hn, ho, -⟩ | ⟨hn, ho⟩
    · rw [ho]
      omega
    · rw [ho]
      omega
  · rcases hcase with ⟨hn, ho, -⟩ | ⟨hn, ho⟩ <;> omega
  · rw [hmax]
    rcases hcase with ⟨hn, ho, -⟩ | ⟨hn, ho⟩ <;> omega

end MinGame
